import Mathlib

/-!
# Marcenaria Track — import pipeline and scan workflow, shallow embedding

This file embeds the import reconciliation/staging pipeline and the barcode
scan workflow of the Marcenaria Track application (`scr/App.tsx`) as Lean
definitions, and proves the specified properties about them.

Conventions of the embedding:
* JavaScript strings are Lean `String`s; per-character operations work on
  `String.data : List Char`.
* The Firestore document store is modelled as a keyed map
  `String → Option Piece` (resp. `Project`); `writeBatch`/`setDoc` is
  key-indexed overwrite, and a batch commit either applies every write or
  (on failure) none, which is the atomicity contract of the store.
* React `useState` cells touched by the import/scan handlers are gathered in
  explicit state records; each handler is a state-transition function.
  External inputs (file contents, clock, authenticated user, commit
  success/failure of the remote store) are explicit parameters.
-/

set_option maxRecDepth 4000

namespace Marcenaria

/-! ## Security utils (`sanitizeBarcode`, App.tsx lines 127-134)

`sanitizeBarcode` does `replace(/[^a-zA-Z0-9\-_]/g, '')`, then
`substring(0, 100)`, then `trim()`, then `toUpperCase()`. -/

/-- The character class `[a-zA-Z0-9\-_]` of the sanitizer's regex, by code
point: `a`-`z` is 97-122, `A`-`Z` is 65-90, `0`-`9` is 48-57, `-` is 45 and
`_` is 95. -/
def isBarcodeChar (c : Char) : Bool :=
  (97 ≤ c.toNat && c.toNat ≤ 122) || (65 ≤ c.toNat && c.toNat ≤ 90) ||
  (48 ≤ c.toNat && c.toNat ≤ 57) || c.toNat == 45 || c.toNat == 95

/-- ASCII uppercasing of one character: what `String.prototype.toUpperCase`
does on every character the sanitizer's filter can let through. -/
def upperChar (c : Char) : Char :=
  if 97 ≤ c.toNat ∧ c.toNat ≤ 122 then Char.ofNat (c.toNat - 32) else c

/-- JS `String.prototype.trim`: strip leading and trailing whitespace. -/
def trimChars (l : List Char) : List Char :=
  ((l.dropWhile Char.isWhitespace).reverse.dropWhile Char.isWhitespace).reverse

/-- Model of `sanitizeBarcode` (App.tsx 127-134): keep only `[a-zA-Z0-9\-_]`, truncate
to 100 characters, trim, uppercase. -/
def sanitizeBarcode (barcode : String) : String :=
  String.mk ((trimChars ((barcode.data.filter isBarcodeChar).take 100)).map upperChar)

/-- JS `String.prototype.trim` on a `String` (strip leading and trailing
whitespace). -/
def jsTrim (s : String) : String := String.mk (trimChars s.data)

/-- Accumulator pass of `jsSplit`. -/
def splitAux (sep : Char) : List Char → List Char → List String
  | [], cur => [String.mk cur.reverse]
  | c :: rest, cur =>
    if c = sep then String.mk cur.reverse :: splitAux sep rest []
    else splitAux sep rest (c :: cur)

/-- JS `String.prototype.split` with a one-character separator:
`''.split(sep) = ['']`, separators at the edges produce empty fields. -/
def jsSplit (s : String) (sep : Char) : List String := splitAux sep s.data []

/-- JS `String.prototype.endsWith`. -/
def strEndsWith (s suffix : String) : Bool := suffix.data.isSuffixOf s.data

/-! ## Main interfaces (App.tsx 149-228) -/

inductive PieceStatus where
  | PENDENTE
  | PRODUZIDA
deriving DecidableEq, Repr

/-- One entry of a piece's `scanHistory`. -/
structure ScanEvent where
  type : String
  «at» : String
  user : String
deriving DecidableEq, Repr

/-- Model of `interface Piece` (App.tsx 173-191). -/
structure Piece where
  id : String
  workspaceId : String
  nome : String
  modulo : String
  projeto : String
  cliente : String
  medidas : String
  material : String
  cor : String
  status : PieceStatus
  producedAt : Option String := none
  producedBy : Option String := none
  scanHistory : List ScanEvent := []
deriving DecidableEq, Repr

/-- Model of `interface Project` (App.tsx 160-171), the fields the import commit
writes. -/
structure Project where
  id : String
  workspaceId : String
  project_name : String
  client_name : String
  client_code : String
  status : String
  created_at : String
deriving DecidableEq, Repr

/-- Model of `interface PromobItem` (App.tsx 217-228). -/
structure PromobItem where
  id : String
  cliente : String
  projeto : String
  modulo : String
  peca : String
  obs : String
  codItem : String
  medidas : String
  isValid : Bool
  errors : List String
deriving DecidableEq, Repr

/-! ## Error taxonomy (App.tsx 424-454) -/

inductive ImportErrorType where
  | CSV_PARSE_ERROR
  | MISSING_REQUIRED_COLUMN
  | INVALID_BARCODE_FORMAT
  | DUPLICATE_BARCODE_IN_FILE
  | INVALID_MEASUREMENTS
  | PDF_CORRUPTED
  | PDF_PASSWORD_PROTECTED
  | PDF_LAYOUT_UNEXPECTED
  | MISSING_CLIENT_INFO
  | MISSING_PROJECT_INFO
  | GENERIC_SYSTEM_ERROR
  | VALIDATION_ERROR
deriving DecidableEq, Repr

inductive ImportErrorSeverity where
  | WARNING
  | ERROR
  | CRITICAL
deriving DecidableEq, Repr

/-- Model of `interface ImportError` (App.tsx 445-454). `value` is kept as the string
the handlers actually store there. -/
structure ImportError where
  type : ImportErrorType
  message : String
  suggestion : String
  lineNumber : Option Nat := none
  pageNumber : Option Nat := none
  field : Option String := none
  value : Option String := none
  severity : ImportErrorSeverity
deriving DecidableEq, Repr

/-! ## Zod schemas (App.tsx 516-560)

Zod validates every field of an object schema and collects one issue per
failing field (for a failing union, one `invalid_union` issue).  Since every
input field here is already a string, the only checks that can fail are the
explicit `min`/`max`/`refine`/union ones below. -/

/-- One Zod issue: the failing field (the single-element `path` of an object
field), the human message, and the issue `code`. -/
structure ZodIssue where
  path : String
  message : String
  code : String
deriving DecidableEq, Repr

/-- Digit character, by code point (`0`-`9` is 48-57). -/
def charIsDigit (c : Char) : Bool := 48 ≤ c.toNat && c.toNat ≤ 57

/-- Nonempty all-digit character list. -/
def allDigits (l : List Char) : Bool := !l.isEmpty && l.all charIsDigit

/-- A well-formed unsigned decimal mantissa `digits`, `digits.digits?` or
`.digits`, returned as `(integer digits, fraction digits)`. -/
def mantissaParts (l : List Char) : Option (List Char × List Char) :=
  let ip := l.takeWhile charIsDigit
  let rest := l.dropWhile charIsDigit
  match rest with
  | [] => if ip.isEmpty then none else some (ip, [])
  | '.' :: fr =>
    if fr.all charIsDigit && !(ip.isEmpty && fr.isEmpty) then some (ip, fr) else none
  | _ => none

/-- A well-formed exponent part (what follows `e`/`E`): optional sign then
digits. -/
def expPartOk (l : List Char) : Bool :=
  match l with
  | '+' :: ds => allDigits ds
  | '-' :: ds => allDigits ds
  | ds => allDigits ds

/-- A well-formed unsigned decimal numeric literal (mantissa with optional
exponent). -/
def unsignedDecOk (l : List Char) : Bool :=
  let m := l.takeWhile (fun c => !(c == 'e' || c == 'E'))
  let r := l.dropWhile (fun c => !(c == 'e' || c == 'E'))
  (mantissaParts m).isSome &&
    (match r with
     | [] => true
     | _ :: e => expPartOk e)

/-- Whether a well-formed unsigned decimal literal denotes the value zero
(all mantissa digits are `0`). -/
def unsignedDecIsZero (l : List Char) : Bool :=
  let m := l.takeWhile (fun c => !(c == 'e' || c == 'E'))
  match mantissaParts m with
  | some (ip, fr) => (ip ++ fr).all (fun c => c == '0')
  | none => false

def charIsHexDigit (c : Char) : Bool :=
  charIsDigit c || (97 ≤ c.toNat && c.toNat ≤ 102) || (65 ≤ c.toNat && c.toNat ≤ 70)

/-- A JavaScript non-decimal integer literal `0x…`/`0o…`/`0b…` (always
non-negative; a sign in front of these is not a number in JS). -/
def radixLiteralOk (l : List Char) : Bool :=
  match l with
  | '0' :: c :: ds =>
    ((c == 'x' || c == 'X') && !ds.isEmpty && ds.all charIsHexDigit) ||
    ((c == 'o' || c == 'O') && !ds.isEmpty && ds.all (fun d => 48 ≤ d.toNat && d.toNat ≤ 55)) ||
    ((c == 'b' || c == 'B') && !ds.isEmpty && ds.all (fun d => d == '0' || d == '1'))
  | _ => false

/-- Model of the JS check `!isNaN(Number(val)) && Number(val) >= 0` on an
already-trimmed string (the ECMAScript string-to-number grammar: optionally
signed decimal literal with exponent, `Infinity`, or a radix-prefixed
integer; a `-`-signed value passes `>= 0` only when its mantissa digits are
all zero, since `-0 >= 0` holds in JS — underflow of huge negative
exponents to `-0` is not modelled). -/
def jsNumberNonNeg (s : String) : Bool :=
  match s.data with
  | '-' :: rest => unsignedDecOk rest && unsignedDecIsZero rest
  | '+' :: rest => unsignedDecOk rest || rest == "Infinity".data
  | l => unsignedDecOk l || l == "Infinity".data || radixLiteralOk l

/-- `str.replace(',', '.')`: replace the first comma only. -/
def replaceFirstComma : List Char → List Char
  | [] => []
  | c :: r => if c = ',' then '.' :: r else c :: replaceFirstComma r

/-- The transform of `DimensionValueSchema` (App.tsx 525-526):
`val.trim().replace(',', '.')`. -/
def dimTransform (s : String) : String := String.mk (replaceFirstComma (jsTrim s).data)

/-- The refine of `DimensionValueSchema` (App.tsx 527) on the transformed
value: `val === '' || (!isNaN(Number(val)) && Number(val) >= 0)`. -/
def dimensionAccepts (v : String) : Bool := v == "" || jsNumberNonNeg v

/-- `DimensionValueSchema` (App.tsx 525-528): the transformed/refined branch
`.or`-ed with `z.string().length(0)` on the raw input; `some` is the parsed
output, `none` a failed union. -/
def dimensionParse (raw : String) : Option String :=
  let v := dimTransform raw
  if dimensionAccepts v then some v
  else if raw.length == 0 then some raw
  else none

/-- Issues of `z.string().min(1, msg)` applied to `clientCode` (App.tsx 539). -/
def clientCodeIssues (s : String) : List ZodIssue :=
  if s.length < 1 then [⟨"clientCode", "Código do cliente ausente", "too_small"⟩] else []

/-- Issues of `clientName`'s `min(1).transform(trim)` (App.tsx 540). -/
def clientNameIssues (s : String) : List ZodIssue :=
  if s.length < 1 then [⟨"clientName", "Nome do cliente ausente", "too_small"⟩] else []

/-- Issues of `projectName`'s `min(1)` (App.tsx 541). -/
def projectNameIssues (s : String) : List ZodIssue :=
  if s.length < 1 then [⟨"projectName", "Nome do projeto ausente", "too_small"⟩] else []

/-- Issues of `BarcodeSchema` (App.tsx 518-523): `min(1)` on the raw string,
then `trim`, then `refine(length >= 3)`; a failing `min` short-circuits the
refine, so at most one issue is produced. -/
def barcodeIssues (path s : String) : List ZodIssue :=
  if s.length < 1 then [⟨path, "Código de barras é obrigatório", "too_small"⟩]
  else if (jsTrim s).length < 3 then
    [⟨path, "Código de barras deve ter pelo menos 3 caracteres", "custom"⟩]
  else []

/-- Issues of `DimensionValueSchema` for one dimension field: a failed union
yields a single `invalid_union` issue at the field's path. -/
def dimIssues (path s : String) : List ZodIssue :=
  match dimensionParse s with
  | some _ => []
  | none => [⟨path, "Invalid input", "invalid_union"⟩]

/-- The raw per-row field mapping handed to `CsvRowSchema.safeParse`
(App.tsx 1713-1725). -/
structure CsvRaw where
  clientCode : String
  clientName : String
  projectName : String
  barcode : String
  pieceModule : String
  pieceName : String
  comprimento : String
  largura : String
  espessura : String
  material : String
  cor : String
deriving DecidableEq, Repr

/-- A row accepted by `CsvRowSchema`: same fields, with the schema's
transforms applied (`clientName` and `barcode` trimmed, dimensions
trimmed and comma-normalised). -/
structure CsvValid where
  clientCode : String
  clientName : String
  projectName : String
  barcode : String
  pieceModule : String
  pieceName : String
  comprimento : String
  largura : String
  espessura : String
  material : String
  cor : String
deriving DecidableEq, Repr

/-- All issues `CsvRowSchema.safeParse` collects for one row, in schema
field order (App.tsx 538-550; `pieceModule`, `pieceName`, `material` and
`cor` are optional strings and cannot fail on string input). -/
def csvIssues (r : CsvRaw) : List ZodIssue :=
  clientCodeIssues r.clientCode ++ clientNameIssues r.clientName ++
  projectNameIssues r.projectName ++ barcodeIssues "barcode" r.barcode ++
  dimIssues "comprimento" r.comprimento ++ dimIssues "largura" r.largura ++
  dimIssues "espessura" r.espessura

/-- `CsvRowSchema.safeParse` (App.tsx 1727): the parsed row on success, the
issue list on failure. -/
def validateCsvRow (r : CsvRaw) : Except (List ZodIssue) CsvValid :=
  match csvIssues r with
  | [] => .ok
    { clientCode := r.clientCode, clientName := jsTrim r.clientName,
      projectName := r.projectName, barcode := jsTrim r.barcode,
      pieceModule := r.pieceModule, pieceName := r.pieceName,
      comprimento := dimTransform r.comprimento, largura := dimTransform r.largura,
      espessura := dimTransform r.espessura, material := r.material, cor := r.cor }
  | issues => .error issues

/-! ## `mapZodErrorToImportError` (App.tsx 562-582) -/

inductive ImportCtx where
  | CSV
  | PDF
deriving DecidableEq, Repr

/-- Model of `mapZodErrorToImportError` (App.tsx 562-582).  The source
applies three successive `if`s rewriting an initial
`VALIDATION_ERROR`/`ERROR` classification; `issue.path.includes(f)` is
equality, the path of an object-field issue being the single field name. -/
def mapZodErrorToImportError (issue : ZodIssue) (rowIndex : Nat) (context : ImportCtx) :
    ImportError :=
  let t0 := ImportErrorType.VALIDATION_ERROR
  let t1 := if issue.path = "barcode" then ImportErrorType.INVALID_BARCODE_FORMAT else t0
  let ts2 : ImportErrorType × ImportErrorSeverity :=
    if issue.path = "comprimento" ∨ issue.path = "largura" then
      (ImportErrorType.INVALID_MEASUREMENTS, ImportErrorSeverity.WARNING)
    else (t1, ImportErrorSeverity.ERROR)
  let t3 := if issue.path = "clientName" ∨ issue.path = "cliente" then
      ImportErrorType.MISSING_CLIENT_INFO
    else ts2.1
  { type := t3, message := issue.message,
    suggestion := "Verifique o campo \x27" ++ issue.path ++ "\x27",
    severity := ts2.2,
    lineNumber := match context with | .CSV => some rowIndex | .PDF => none,
    pageNumber := match context with | .CSV => none | .PDF => some rowIndex,
    field := some issue.path,
    value := some (if issue.code = "invalid_type" then "Tipo Inválido" else "Formato Inválido") }

/-! ## CSV extraction (`handleAnalyze` row loop, App.tsx 1682-1762) -/

/-- `col.trim().replace(/^"|"$/g, '')` strips at most one leading and one
trailing double quote. -/
def stripEdgeQuotes (s : String) : String :=
  let l1 := match s.data with
    | '"' :: rest => rest
    | l => l
  if l1.getLast? = some '"' then String.mk l1.dropLast else String.mk l1

/-- Split a (pre-trimmed) CSV line into cleaned columns
(`line.split(',').map(col => col.trim().replace(/^"|"$/g, ''))`,
App.tsx 1688). -/
def parseCols (line : String) : List String :=
  (jsSplit line ',').map (fun c => stripEdgeQuotes (jsTrim c))

/-- The raw field mapping built from the fixed Haixun column indices
(App.tsx 1664-1675 and 1713-1725): ordem 16, módulo 8, code 11,
observação 13, nome peça 3, nome módulo 2, comprimento 4, largura 5,
espessura 6, material 9, cor 10. -/
def rawOfCols (cols : List String) : CsvRaw :=
  { clientCode := cols.getD 16 "", clientName := cols.getD 13 "",
    projectName := cols.getD 8 "", barcode := cols.getD 11 "",
    pieceModule := cols.getD 2 "", pieceName := cols.getD 3 "",
    comprimento := cols.getD 4 "", largura := cols.getD 5 "",
    espessura := cols.getD 6 "", material := cols.getD 9 "",
    cor := cols.getD 10 "" }

/-- One iteration of the `handleAnalyze` row loop (App.tsx 1682-1762) for
the line at array index `i`: the `ImportError`s pushed for that row and the
validated record (if any) that goes on to `tempPecas`/`clientMap`.  An
empty (after trim) line is skipped; a line with fewer than 17 columns is
rejected with a `MISSING_REQUIRED_COLUMN` warning and never reaches the
validator; otherwise the row is validated with `CsvRowSchema` and either
all of its issues are recorded (row skipped) or the record is produced. -/
def rowStep (i : Nat) (rawLine : String) : List ImportError × List CsvValid :=
  let line := jsTrim rawLine
  if line = "" then ([], [])
  else
    let cols := parseCols line
    if cols.length < 17 then
      ([{ type := ImportErrorType.MISSING_REQUIRED_COLUMN,
          message := "Linha com colunas insuficientes (" ++ toString cols.length ++ ")",
          suggestion := "A linha deve ter pelo menos 17 colunas",
          lineNumber := some (i + 1),
          severity := ImportErrorSeverity.WARNING,
          value := some (String.mk (line.data.take 30) ++ "...") }], [])
    else
      match validateCsvRow (rawOfCols cols) with
      | .error issues => (issues.map (fun is => mapZodErrorToImportError is (i + 1) .CSV), [])
      | .ok v => ([], [v])

/-- The row loop over the data lines (`for (let i = 1; …)`): `i` is the
array index of the first line of `rest`; errors and records accumulate in
row order. -/
def analyzeRows : Nat → List String → List ImportError × List CsvValid
  | _, [] => ([], [])
  | i, line :: rest =>
    let here := rowStep i line
    let later := analyzeRows (i + 1) rest
    (here.1 ++ later.1, here.2 ++ later.2)

/-! ## The document store -/

/-- The Firestore `pieces` collection, as a keyed document map. -/
def PieceStore := String → Option Piece

/-- The Firestore `projects` collection. -/
def ProjectStore := String → Option Project

/-- `batch.set(doc(…, 'pieces', id), p)`: keyed overwrite. -/
def setPieceDoc (s : PieceStore) (k : String) (p : Piece) : PieceStore :=
  fun x => if x = k then some p else s x

def setProjectDoc (s : ProjectStore) (k : String) (pr : Project) : ProjectStore :=
  fun x => if x = k then some pr else s x

/-- The piece writes of a committed batch
(`tempPecas.forEach(p => batch.set(doc(…, 'pieces', p.id), p))`,
App.tsx 1862-1864), applied in order. -/
def applyPiecesBatch (s : PieceStore) (ps : List Piece) : PieceStore :=
  ps.foldl (fun acc p => setPieceDoc acc p.id p) s

/-! ## `handleAnalyze` aggregation (App.tsx 1736-1801) -/

/-- One `clientMap` entry: `{ clientCode, clientName, projects: Set }`
(App.tsx 1738-1743), with the JS `Set` as an insertion-ordered duplicate-free
list. -/
structure ClientInfo where
  clientCode : String
  clientName : String
  projects : List String
deriving DecidableEq, Repr

/-- JS `Set.prototype.add` on an insertion-ordered duplicate-free list. -/
def setAdd (ms : List String) (m : String) : List String :=
  if m ∈ ms then ms else ms ++ [m]

/-- One row's effect on `clientMap` (App.tsx 1738-1746): create the entry
for a new `clientCode` (keeping the first row's `clientName`), then add the
row's `projectName` to the entry's project set. -/
def clientStep (m : List ClientInfo) (r : CsvValid) : List ClientInfo :=
  if (m.find? (fun ci => ci.clientCode == r.clientCode)).isSome then
    m.map (fun ci =>
      if ci.clientCode == r.clientCode then
        { ci with projects := setAdd ci.projects r.projectName }
      else ci)
  else m ++ [{ clientCode := r.clientCode, clientName := r.clientName,
               projects := [r.projectName] }]

/-- The `Piece` pushed onto `tempPecas` for one validated row
(App.tsx 1748-1759); `x || y` on strings falls back on empty. -/
def buildPiece (ws : String) (v : CsvValid) : Piece :=
  { id := ws ++ "_" ++ v.barcode,
    workspaceId := ws,
    nome := if v.pieceName = "" then "Peça " ++ v.barcode else v.pieceName,
    modulo := v.pieceModule,
    projeto := v.projectName,
    cliente := v.clientName,
    medidas := (if v.comprimento = "" then "0" else v.comprimento) ++ "x" ++
               (if v.largura = "" then "0" else v.largura) ++ "x" ++
               (if v.espessura = "" then "0" else v.espessura),
    material := v.material,
    cor := v.cor,
    status := PieceStatus.PENDENTE }

/-- The per-project accumulator of the preview pass:
`{ pieceCount, modules: Set }` (App.tsx 1776). -/
structure ProjStat where
  pieceCount : Nat
  modules : List String
deriving DecidableEq, Repr

/-- One piece's effect on `projectStats` (App.tsx 1774-1781): create the
project's entry if absent, then increment the count and add the module. -/
def statsStep (st : List (String × ProjStat)) (p : Piece) : List (String × ProjStat) :=
  if (st.find? (fun e => e.1 == p.projeto)).isSome then
    st.map (fun e =>
      if e.1 == p.projeto then
        (e.1, { pieceCount := e.2.pieceCount + 1, modules := setAdd e.2.modules p.modulo })
      else e)
  else st ++ [(p.projeto, { pieceCount := 1, modules := [p.modulo] })]

/-- One row of the preview's per-project list (App.tsx 1783-1787). -/
structure ProjectPreview where
  name : String
  pieceCount : Nat
  moduleCount : Nat
deriving DecidableEq, Repr

/-- One row of `previewData` (App.tsx 1789-1797). -/
structure ClientPreview where
  clientCode : String
  clientName : String
  totalProjects : Nat
  totalModules : Nat
  totalPieces : Nat
  projects : List ProjectPreview
deriving DecidableEq, Repr

/-- The preview entry built for one `clientMap` entry (App.tsx 1772-1798):
filter `tempPecas` by the client's name, fold the per-project stats, then
read the counts off. -/
def previewFor (tempPecas : List Piece) (info : ClientInfo) : ClientPreview :=
  let myPieces := tempPecas.filter (fun p => p.cliente == info.clientName)
  let stats := myPieces.foldl statsStep []
  let projectList := stats.map (fun e =>
    { name := e.1, pieceCount := e.2.pieceCount, moduleCount := e.2.modules.length })
  { clientCode := info.clientCode,
    clientName := info.clientName,
    totalProjects := projectList.length,
    totalModules := (projectList.map (fun p => p.moduleCount)).sum,
    totalPieces := (projectList.map (fun p => p.pieceCount)).sum,
    projects := projectList }

/-- The Aggregator: `clientMap` (first-wins by `clientCode`) and the
per-client previews, from the validated records of one analyze pass. -/
def aggregateCsv (ws : String) (l : List CsvValid) : List ClientPreview :=
  (l.foldl clientStep []).map (previewFor (l.map (buildPiece ws)))

/-- The per-client, per-project `(pieceCount, moduleCount)` the preview
reports for client code `code` and project `pr` (`none` when the client or
the project does not appear in the preview). -/
def aggQuery (ws : String) (l : List CsvValid) (code pr : String) : Option (Nat × Nat) :=
  match (aggregateCsv ws l).find? (fun cp => cp.clientCode == code) with
  | none => none
  | some cp => (cp.projects.find? (fun e => e.name == pr)).map
      (fun e => (e.pieceCount, e.moduleCount))

/-! ## Import staging state machine (App.tsx 1621-1892) -/

/-- `importStatus` (`{type: 'success' | 'error' | null, message}`). -/
inductive ImportStatus where
  | idle
  | success (message : String)
  | error (message : String)
deriving DecidableEq, Repr

/-- The staged data held between analyze and confirm
(`setPendingData({ tempPecas, clientProjects })`, App.tsx 1801). -/
structure PendingData where
  tempPecas : List Piece
  clientProjects : List ClientInfo
deriving DecidableEq, Repr

/-- The selected CSV file: its byte size (checked against the 10 MB limit)
and its text content. -/
structure CsvFile where
  size : Nat
  content : String
deriving DecidableEq, Repr

/-- The import-view state cells the analyze/confirm/cancel handlers touch,
plus the two store collections the confirm batch writes. -/
structure ImportState where
  ws : String
  pecasFile : Option CsvFile
  isProcessingImport : Bool
  importErrors : List ImportError
  importStatus : ImportStatus
  previewData : Option (List ClientPreview)
  pendingData : Option PendingData
  piecesStore : PieceStore
  projectsStore : ProjectStore

def MAX_FILE_SIZE : Nat := 10 * 1024 * 1024

def MIN_ROWS_REQUIRED : Nat := 2

/-- `detectAndFixEncoding` (App.tsx 631-637): strip one leading BOM from
every line. -/
def detectAndFixEncoding (content : String) : String :=
  String.intercalate "\n"
    ((jsSplit content '\n').map (fun line =>
      match line.data with
      | '﻿' :: rest => String.mk rest
      | _ => line))

/-- Model of `handleAnalyze` (App.tsx 1622-1824).  A run already in flight
makes the call a no-op; otherwise previous results are cleared, the file
checks run, the data lines (all but the header line) are extracted and
validated, and on at least one valid record the preview and pending data
are staged.  The `try/catch` of the source cannot fire in the embedded
portion (string splitting never throws), and `finally` restores
`isProcessingImport`. -/
def handleAnalyze (st : ImportState) : ImportState :=
  if st.isProcessingImport then st
  else
    let st1 := { st with importStatus := ImportStatus.idle, importErrors := [],
                         previewData := none, pendingData := none }
    match st1.pecasFile with
    | none => { st1 with importStatus :=
        ImportStatus.error "Erro: Selecione a planilha de etiquetas (peças)." }
    | some f =>
      if MAX_FILE_SIZE < f.size then
        { st1 with importStatus := ImportStatus.error "Erro: Arquivo muito grande. Máximo 10MB." }
      else
        let lines := jsSplit (detectAndFixEncoding f.content) '\n' 
        if lines.length < MIN_ROWS_REQUIRED then
          let err : ImportError :=
            { type := ImportErrorType.CSV_PARSE_ERROR,
              message := "Arquivo vazio ou com linhas insuficientes",
              suggestion := "Verifique se o arquivo CSV contém dados",
              severity := ImportErrorSeverity.CRITICAL }
          { st1 with importErrors := [err],
                     importStatus := ImportStatus.error "Arquivo inválido." }
        else
          let res := analyzeRows 1 (lines.drop 1)
          let tempPecas := res.2.map (buildPiece st1.ws)
          if tempPecas.isEmpty then
            { st1 with
              importErrors := res.1
              importStatus := ImportStatus.error "Erro: Nenhuma peça válida encontrada." }
          else
            let infos := res.2.foldl clientStep []
            let totalErrors :=
              (res.1.filter (fun e => !(e.severity == ImportErrorSeverity.WARNING))).length
            { st1 with
              importErrors := res.1
              previewData := some (infos.map (previewFor tempPecas))
              pendingData := some { tempPecas := tempPecas, clientProjects := infos }
              importStatus :=
                if 0 < totalErrors then
                  ImportStatus.error ("Análise com " ++ toString totalErrors ++
                    " erros e " ++ toString res.2.length ++ " linhas válidas.")
                else
                  ImportStatus.success ("Análise concluída: " ++
                    toString tempPecas.length ++ " peças.") }

/-- `key.replace(/\s+/g, '_')`: each maximal whitespace run becomes one
underscore.  The `emitted` flag tracks whether the previous character was
part of a run already replaced. -/
def collapseWsAux : Bool → List Char → List Char
  | _, [] => []
  | prevWs, c :: rest =>
    if c.isWhitespace then
      if prevWs then collapseWsAux true rest
      else '_' :: collapseWsAux true rest
    else c :: collapseWsAux false rest

/-- The project-document id of the confirm batch
(`key.replace(/\s+/g, '_').toUpperCase()`, App.tsx 1849). -/
def projIdOf (key : String) : String :=
  String.mk ((collapseWsAux false key.data).map upperChar)

/-- The `uniqueProjs` map of `handleConfirm` (App.tsx 1835-1846): one entry
per `cliente + '_' + projeto` key (first piece wins), carrying the client
code looked up in the staged `clientProjects`. -/
def uniqueProjsOf (pd : PendingData) : List (String × String × String × String) :=
  pd.tempPecas.foldl
    (fun m p =>
      let key := p.cliente ++ "_" ++ p.projeto
      if (m.find? (fun e => e.1 == key)).isSome then m
      else m ++ [(key, p.cliente, p.projeto,
        ((pd.clientProjects.find? (fun c => c.clientName == p.cliente)).map
          (fun c => c.clientCode)).getD "")])
    []

/-- The project writes of the confirm batch (App.tsx 1848-1860). -/
def applyProjectsBatch (ws : String) (s : ProjectStore) (pd : PendingData) (now : String) :
    ProjectStore :=
  (uniqueProjsOf pd).foldl
    (fun acc e =>
      let projId := projIdOf e.1
      setProjectDoc acc projId
        { id := projId, workspaceId := ws,
          project_name := e.2.2.1, client_name := e.2.1, client_code := e.2.2.2,
          status := "PRODUCAO", created_at := now })
    s

/-- Model of `handleConfirm` (App.tsx 1826-1884).  With nothing staged or a
run in flight the call is a no-op.  Otherwise the batch (projects then
pieces) commits atomically: `ok = true` applies every write and clears the
staged buffers, `ok = false` applies none and leaves every staged buffer in
place, recording only the retryable error status. -/
def handleConfirm (ok : Bool) (now : String) (st : ImportState) : ImportState :=
  match st.pendingData with
  | none => st
  | some pd =>
    if st.isProcessingImport then st
    else if ok then
      { st with
        piecesStore := applyPiecesBatch st.piecesStore pd.tempPecas,
        projectsStore := applyProjectsBatch st.ws st.projectsStore pd now,
        importStatus := ImportStatus.success "Importação realizada com sucesso!",
        previewData := none, pendingData := none, pecasFile := none,
        importErrors := [] }
    else { st with importStatus := ImportStatus.error "Erro ao gravar dados." }

/-! ## Scan workflow (`handleScan`, App.tsx 970-1029) -/

inductive MsgType where
  | success
  | error
deriving DecidableEq, Repr

structure ScanMsg where
  mtype : MsgType
  text : String
  data : Option Piece := none
deriving DecidableEq, Repr

/-- The production-view state cells `handleScan` touches. -/
structure ScanState where
  ws : String
  code : String
  isScanning : Bool
  lastMsg : Option ScanMsg
  store : PieceStore

/-- Firestore `arrayUnion`: append the element unless already present. -/
def arrayUnion (l : List ScanEvent) (e : ScanEvent) : List ScanEvent :=
  if e ∈ l then l else l ++ [e]

/-- Model of `handleScan` (App.tsx 970-1029).  The input is sanitized and
length-checked; a scan already in flight is a no-op; the piece document at
`ws + '_' + sanitized` is looked up; a missing piece and an
already-`PRODUZIDA` piece are rejected without any write; otherwise the
piece is updated to `PRODUZIDA` with producer metadata and a scan-history
entry.  `isScanning` is restored by `finally`. -/
def handleScan (st : ScanState) (barcode now user : String) : ScanState :=
  let sanitized := sanitizeBarcode barcode
  if sanitized = "" ∨ sanitized.length < 3 then
    { st with lastMsg := some { mtype := MsgType.error, text := "Código inválido" } }
  else if st.isScanning then st
  else
    let st := { st with code := "" }
    let ref := st.ws ++ "_" ++ sanitized
    match st.store ref with
    | none =>
      { st with lastMsg := some { mtype := MsgType.error
                                  text := "Peça não encontrada no sistema." } }
    | some piece =>
      if piece.status = PieceStatus.PRODUZIDA then
        { st with lastMsg := some { mtype := MsgType.error
                                    text := "Esta peça já foi bipada!"
                                    data := some piece } }
      else
        let updated := { piece with
          status := PieceStatus.PRODUZIDA,
          producedAt := some now,
          producedBy := some user,
          scanHistory := arrayUnion piece.scanHistory
            { type := "SCAN", «at» := now, user := user } }
        let msg : ScanMsg :=
          { mtype := MsgType.success
            text := "SUCESSO: " ++ (if piece.nome = "" then "Peça" else piece.nome) ++
              " bipada!"
            data := some piece }
        { st with
          store := setPieceDoc st.store ref updated
          lastMsg := some msg }

/-! ## PDF path (`processPdfFile` per-cell logic, App.tsx 1961-2027, and
`savePromobData`, App.tsx 2086-2186)

The geometric text clustering and the regexes run over pdf.js output are
external; `PdfCell` is their result for one cell: each field is the first
capture group of its regex when it matched (`medidas` is the whole match). -/

/-- The regex-match results for one label cell (App.tsx 1966-1972). -/
structure PdfCell where
  cliente : Option String
  projeto : Option String
  modulo : Option String
  peca : Option String
  obs : Option String
  codItem : Option String
  medidas : Option String
deriving DecidableEq, Repr

/-- The field values of a Promob item before/after `PdfItemSchema`. -/
structure PdfItemData where
  cliente : String
  projeto : String
  modulo : String
  peca : String
  obs : String
  codItem : String
  medidas : String
deriving DecidableEq, Repr

/-- `rawCod` (App.tsx 1974): the trimmed code capture, `''` when the regex
did not match. -/
def rawCodOf (cell : PdfCell) : String := jsTrim (cell.codItem.getD "")

/-- The `rawItem` object handed to `PdfItemSchema.safeParse`
(App.tsx 1980-1988). -/
def pdfRawItem (cell : PdfCell) : PdfItemData :=
  { cliente := cell.cliente.getD "", projeto := cell.projeto.getD "",
    modulo := cell.modulo.getD "", peca := cell.peca.getD "",
    obs := cell.obs.getD "", codItem := rawCodOf cell,
    medidas := cell.medidas.getD "" }

/-- Issues of `ClientNameSchema` (App.tsx 532-536): `min(0)` never fails,
`max(100)` can; the `transform(trim)` follows. -/
def pdfClienteIssues (s : String) : List ZodIssue :=
  if 100 < s.length then [⟨"cliente", "Nome do cliente muito longo", "too_big"⟩] else []

/-- All issues `PdfItemSchema.safeParse` collects (App.tsx 552-560): the
defaulted plain-string fields cannot fail on string input, so only
`cliente` and `codItem` can contribute. -/
def pdfIssues (r : PdfItemData) : List ZodIssue :=
  pdfClienteIssues r.cliente ++ barcodeIssues "codItem" r.codItem

/-- `PdfItemSchema.safeParse` (App.tsx 1990). -/
def validatePdfItem (r : PdfItemData) : Except (List ZodIssue) PdfItemData :=
  match pdfIssues r with
  | [] => .ok { r with cliente := jsTrim r.cliente, codItem := jsTrim r.codItem }
  | issues => .error issues

/-- `validData` (App.tsx 2004): the parsed data on success, the raw item on
failure. -/
def pdfValidData (cell : PdfCell) : PdfItemData :=
  match validatePdfItem (pdfRawItem cell) with
  | .ok v => v
  | .error _ => pdfRawItem cell

/-- The duplicate business check (App.tsx 2007):
`pieces.some(p => p.id.endsWith(String(validData.codItem || '')))` —
a suffix test of the raw extracted code against every loaded piece id. -/
def pdfIsDuplicate (pieces : List Piece) (cell : PdfCell) : Bool :=
  pieces.any (fun p => strEndsWith p.id (pdfValidData cell).codItem)

/-- The business error message pushed for a duplicate (App.tsx 2010). -/
def duplicateCodeMsg : String := "Código já existe no sistema"

/-- The per-cell body of the `processPdfFile` extraction loop
(App.tsx 1961-2027) for page `pageNo`: `none` (and no errors) for a cell
with no code and no piece-name match, otherwise the `PromobItem` pushed
onto `extractedItems` (always pushed, valid or not) together with the
`ImportError`s added to the global parsing-error list.  `uuid` stands for
the `crypto.randomUUID()` call. -/
def processCell (pieces : List Piece) (uuid : String) (pageNo : Nat) (cell : PdfCell) :
    Option PromobItem × List ImportError :=
  let rawCod := rawCodOf cell
  if rawCod = "" ∧ cell.peca = none then (none, [])
  else
    let rawItem := pdfRawItem cell
    let validation := validatePdfItem rawItem
    let isValid0 := match validation with | .ok _ => true | .error _ => false
    let itemErrors0 := match validation with
      | .ok _ => []
      | .error issues => issues.map (fun is => is.message)
    let parseErrors := match validation with
      | .ok _ => []
      | .error issues => issues.map (fun is => mapZodErrorToImportError is pageNo .PDF)
    let validData := pdfValidData cell
    let isDup := pieces.any (fun p => strEndsWith p.id validData.codItem)
    let isValid1 := if isDup then false else isValid0
    let itemErrors1 := if isDup then itemErrors0 ++ [duplicateCodeMsg] else itemErrors0
    let item : PromobItem :=
      { id := uuid
        cliente := jsTrim validData.cliente
        projeto := jsTrim validData.projeto
        modulo := jsTrim validData.modulo
        peca := jsTrim validData.peca
        obs := jsTrim validData.obs
        codItem := jsTrim validData.codItem
        medidas := jsTrim validData.medidas
        isValid := isValid1
        errors := itemErrors1 }
    (some item, parseErrors)

/-- Alphanumeric character, by code point: the class `[a-zA-Z0-9]` of
`savePromobData`'s barcode cleanup. -/
def isAlnumChar (c : Char) : Bool :=
  (97 ≤ c.toNat && c.toNat ≤ 122) || (65 ≤ c.toNat && c.toNat ≤ 90) ||
  (48 ≤ c.toNat && c.toNat ≤ 57)

/-- The barcode stored by the Promob commit (App.tsx 2135):
`item.codItem.replace(/[^a-zA-Z0-9]/g, '').toUpperCase()`. -/
def promobBarcode (codItem : String) : String :=
  String.mk ((codItem.data.filter isAlnumChar).map upperChar)

/-- The piece-document id of the Promob commit (App.tsx 2138):
`ws + '_' + barcode`. -/
def promobPieceId (ws codItem : String) : String :=
  ws ++ "_" ++ promobBarcode codItem

/-! ## Auxiliary query functions used by the verification -/

/-- The last piece of a batch whose id is `x` (the binding a sequence of
keyed overwrites leaves behind). -/
def lastWith (ps : List Piece) (x : String) : Option Piece :=
  ps.foldl (fun acc p => if p.id = x then some p else acc) none

/-- Look a project's accumulated stats up in a `projectStats` list (the
first entry with the given key, as `Map.get` returns). -/
def lookupStat : List (String × ProjStat) → String → Option ProjStat
  | [], _ => none
  | e :: tl, pr => if e.1 == pr then some e.2 else lookupStat tl pr

/-- The `(pieceCount, moduleCount)` the preview derives for project `pr`
from a client's filtered piece list. -/
def projStatsOf (pieces : List Piece) (pr : String) : Option (Nat × Nat) :=
  (lookupStat (pieces.foldl statsStep []) pr).map (fun s => (s.pieceCount, s.modules.length))

/-! ## Concrete fixtures used by the witness theorems -/

def c2FixtureState : ImportState :=
  { ws := "WS", pecasFile := none, isProcessingImport := false,
    importErrors := [], importStatus := ImportStatus.idle,
    previewData := some [],
    pendingData := some { tempPecas := [], clientProjects := [] },
    piecesStore := fun _ => none, projectsStore := fun _ => none }

def c7FixturePiece : Piece :=
  { id := "WS_ABC", workspaceId := "WS", nome := "Porta", modulo := "M1",
    projeto := "P", cliente := "A", medidas := "1x2x3", material := "", cor := "",
    status := PieceStatus.PRODUZIDA }

def c7FixtureState : ScanState :=
  { ws := "WS", code := "", isScanning := false, lastMsg := none,
    store := fun k => if k = "WS_ABC" then some c7FixturePiece else none }

def c8FixtureState : ImportState :=
  { ws := "WS", pecasFile := some { size := 3, content := "a\nb" },
    isProcessingImport := true,
    importErrors := [], importStatus := ImportStatus.idle,
    previewData := none, pendingData := none,
    piecesStore := fun _ => none, projectsStore := fun _ => none }

def c6Pieces : List Piece :=
  [{ id := "WS_XABC", workspaceId := "WS", nome := "X", modulo := "", projeto := "P",
     cliente := "A", medidas := "", material := "", cor := "",
     status := PieceStatus.PENDENTE }]

def c6Cell : PdfCell :=
  { cliente := some "ACME", projeto := some "Cozinha", modulo := some "M1",
    peca := some "Porta", obs := none, codItem := some "ABC",
    medidas := some "10x20 mm" }

/-! # Theorems -/

/-! ## Store lemmas -/

theorem foldl_lastWith (ps : List Piece) (x : String) (a : Option Piece) :
    ps.foldl (fun acc p => if p.id = x then some p else acc) a =
      match lastWith ps x with
      | some q => some q
      | none => a := by
  induction ps generalizing a with
  | nil => simp [lastWith]
  | cons p tl ih =>
    show List.foldl _ (if p.id = x then some p else a) tl = _
    rw [ih]
    have htl : lastWith (p :: tl) x =
        match lastWith tl x with
        | some q => some q
        | none => if p.id = x then some p else none := by
      show List.foldl _ (if p.id = x then some p else none) tl = _
      rw [ih]
    rw [htl]
    cases lastWith tl x with
    | some q => rfl
    | none => by_cases h : p.id = x <;> simp [h]

theorem applyPiecesBatch_apply (s : PieceStore) (ps : List Piece) (x : String) :
    applyPiecesBatch s ps x =
      match lastWith ps x with
      | some q => some q
      | none => s x := by
  induction ps generalizing s with
  | nil => simp [applyPiecesBatch, lastWith]
  | cons p tl ih =>
    show applyPiecesBatch (setPieceDoc s p.id p) tl x = _
    rw [ih]
    have htl : lastWith (p :: tl) x =
        match lastWith tl x with
        | some q => some q
        | none => if p.id = x then some p else none := by
      show List.foldl _ (if p.id = x then some p else none) tl = _
      rw [foldl_lastWith]
    rw [htl]
    cases lastWith tl x with
    | some q => rfl
    | none =>
      show setPieceDoc s p.id p x = _
      unfold setPieceDoc
      by_cases h : p.id = x
      · simp [h]
      · rw [if_neg (fun hh => h hh.symm), if_neg h]

theorem applyPiecesBatch_idem (s : PieceStore) (ps : List Piece) :
    applyPiecesBatch (applyPiecesBatch s ps) ps = applyPiecesBatch s ps := by
  funext x
  rw [applyPiecesBatch_apply, applyPiecesBatch_apply]
  cases h : lastWith ps x with
  | some q => rfl
  | none => rfl

/-! ## Claim C1 -/

/-- C1: for every imported record, the persisted Piece's document identifier
is a pure function of `(workspaceId, barcode)` — the CSV path stores at
`ws + '_' + barcode` (trimmed) and the Promob path at
`ws + '_' + promobBarcode(codItem)`, so two records with the same barcode
map to the same document — and committing the same batch of piece writes
twice leaves exactly the store that committing it once leaves: the second
commit overwrites the same documents with identical values, so the piece
count (over any key set) does not double. -/
theorem c1_piece_id_pure_and_commit_idempotent :
    (∀ (ws : String) (v v' : CsvValid), v.barcode = v'.barcode →
      (buildPiece ws v).id = (buildPiece ws v').id) ∧
    (∀ (ws : String) (v : CsvValid), (buildPiece ws v).id = ws ++ "_" ++ v.barcode) ∧
    (∀ (s : PieceStore) (ps : List Piece),
      applyPiecesBatch (applyPiecesBatch s ps) ps = applyPiecesBatch s ps) ∧
    (∀ (s : PieceStore) (ps : List Piece) (ids : List String),
      (ids.filter (fun k => (applyPiecesBatch (applyPiecesBatch s ps) ps k).isSome)).length =
        (ids.filter (fun k => (applyPiecesBatch s ps k).isSome)).length) := by
  refine ⟨?_, ?_, applyPiecesBatch_idem, ?_⟩
  · intro ws v v' h
    simp [buildPiece, h]
  · intro ws v
    rfl
  · intro s ps ids
    rw [applyPiecesBatch_idem]

/-- Witness for C1 at concrete inputs: two records sharing barcode `BAR01`
get the same document id, and re-committing a one-piece batch leaves the
store unchanged. -/
theorem c1_witness :
    (buildPiece "WS" ⟨"C1", "A", "P", "BAR01", "", "", "", "", "", "", ""⟩).id =
      (buildPiece "WS" ⟨"C1", "B", "P", "BAR01", "", "", "", "", "", "", ""⟩).id ∧
    applyPiecesBatch
        (applyPiecesBatch (fun _ => none)
          [buildPiece "WS" ⟨"C1", "A", "P", "BAR01", "", "", "", "", "", "", ""⟩])
        [buildPiece "WS" ⟨"C1", "A", "P", "BAR01", "", "", "", "", "", "", ""⟩] =
      applyPiecesBatch (fun _ => none)
        [buildPiece "WS" ⟨"C1", "A", "P", "BAR01", "", "", "", "", "", "", ""⟩] :=
  ⟨c1_piece_id_pure_and_commit_idempotent.1 "WS" _ _ (by decide),
   c1_piece_id_pure_and_commit_idempotent.2.2.1 _ _⟩

/-! ## Claim C2 -/

/-- C2: if the batched commit of a staged CSV import fails, no write reaches
the stores and the staged `pendingData`/`previewData` are preserved
unchanged, so confirm can be invoked again without re-running analyze and
yields exactly the state a directly-successful confirm would have yielded;
the staged buffers are cleared only by the successful commit. -/
theorem c2_confirm_failure_preserves_staging (st : ImportState) (pd : PendingData)
    (now now' : String)
    (hpd : st.pendingData = some pd) (hflag : st.isProcessingImport = false) :
    (handleConfirm false now st).piecesStore = st.piecesStore ∧
    (handleConfirm false now st).projectsStore = st.projectsStore ∧
    (handleConfirm false now st).pendingData = st.pendingData ∧
    (handleConfirm false now st).previewData = st.previewData ∧
    (handleConfirm false now st).importErrors = st.importErrors ∧
    handleConfirm true now' (handleConfirm false now st) = handleConfirm true now' st ∧
    (handleConfirm true now' st).pendingData = none ∧
    (handleConfirm true now' st).previewData = none := by
  simp [handleConfirm, hpd, hflag]

/-- Witness for C2 at a concrete staged state. -/
theorem c2_witness :
    (handleConfirm false "t0" c2FixtureState).piecesStore = c2FixtureState.piecesStore ∧
    (handleConfirm false "t0" c2FixtureState).projectsStore = c2FixtureState.projectsStore ∧
    (handleConfirm false "t0" c2FixtureState).pendingData = c2FixtureState.pendingData ∧
    (handleConfirm false "t0" c2FixtureState).previewData = c2FixtureState.previewData ∧
    (handleConfirm false "t0" c2FixtureState).importErrors = c2FixtureState.importErrors ∧
    handleConfirm true "t1" (handleConfirm false "t0" c2FixtureState) =
      handleConfirm true "t1" c2FixtureState ∧
    (handleConfirm true "t1" c2FixtureState).pendingData = none ∧
    (handleConfirm true "t1" c2FixtureState).previewData = none :=
  c2_confirm_failure_preserves_staging c2FixtureState
    { tempPecas := [], clientProjects := [] } "t0" "t1" rfl rfl

/-! ## Claim C5 -/

/-- C5: every non-empty CSV line with fewer than 17 columns produces zero
records and exactly one `MISSING_REQUIRED_COLUMN` error of severity
`WARNING` carrying the line number, and is skipped before the field
validator runs. -/
theorem c5_too_few_columns_single_warning (i : Nat) (line : String)
    (hne : jsTrim line ≠ "")
    (hcols : (parseCols (jsTrim line)).length < 17) :
    ((rowStep i line).1.map (fun e => (e.type, e.severity, e.lineNumber))) =
      [(ImportErrorType.MISSING_REQUIRED_COLUMN, ImportErrorSeverity.WARNING, some (i + 1))] ∧
    (rowStep i line).2 = [] := by
  rw [rowStep]
  simp [hne, hcols]

/-- Witness for C5: the 3-column line `a,b,c`. -/
theorem c5_witness :
    ((rowStep 9 "a,b,c").1.map (fun e => (e.type, e.severity, e.lineNumber))) =
      [(ImportErrorType.MISSING_REQUIRED_COLUMN, ImportErrorSeverity.WARNING, some 10)] ∧
    (rowStep 9 "a,b,c").2 = [] :=
  c5_too_few_columns_single_warning 9 "a,b,c" (by decide) (by decide)

/-! ## Per-field issue classification lemmas (for C3 and C4) -/

theorem mem_clientCodeIssues {s : String} {is : ZodIssue}
    (h : is ∈ clientCodeIssues s) : is.path = "clientCode" := by
  unfold clientCodeIssues at h
  split at h <;> simp_all

theorem mem_clientNameIssues {s : String} {is : ZodIssue}
    (h : is ∈ clientNameIssues s) : is.path = "clientName" := by
  unfold clientNameIssues at h
  split at h <;> simp_all

theorem mem_projectNameIssues {s : String} {is : ZodIssue}
    (h : is ∈ projectNameIssues s) : is.path = "projectName" := by
  unfold projectNameIssues at h
  split at h <;> simp_all

theorem mem_barcodeIssues {path s : String} {is : ZodIssue}
    (h : is ∈ barcodeIssues path s) : is.path = path := by
  unfold barcodeIssues at h
  split at h <;> (try split at h) <;> simp_all

theorem mem_dimIssues {path s : String} {is : ZodIssue}
    (h : is ∈ dimIssues path s) : is.path = path := by
  unfold dimIssues at h
  split at h <;> simp_all

theorem filter_path_of_all {comp : List ZodIssue} {P fld : String}
    (hall : ∀ is ∈ comp, is.path = P) (hne : P ≠ fld) :
    comp.filter (fun is => is.path == fld) = [] := by
  rw [List.filter_eq_nil_iff]
  intro a ha
  simp [hall a ha, hne]

theorem filter_path_self {comp : List ZodIssue} {P : String}
    (hall : ∀ is ∈ comp, is.path = P) :
    comp.filter (fun is => is.path == P) = comp := by
  rw [List.filter_eq_self]
  intro a ha
  simp [hall a ha]

theorem csvIssues_filter_barcode (r : CsvRaw) :
    (csvIssues r).filter (fun is => is.path == "barcode") =
      barcodeIssues "barcode" r.barcode := by
  unfold csvIssues
  simp only [List.filter_append]
  rw [filter_path_of_all (fun _ h => mem_clientCodeIssues h) (by decide),
      filter_path_of_all (fun _ h => mem_clientNameIssues h) (by decide),
      filter_path_of_all (fun _ h => mem_projectNameIssues h) (by decide),
      filter_path_self (fun _ h => mem_barcodeIssues h),
      filter_path_of_all (fun _ h => mem_dimIssues h) (by decide),
      filter_path_of_all (fun _ h => mem_dimIssues h) (by decide),
      filter_path_of_all (fun _ h => mem_dimIssues h) (by decide)]
  simp

theorem csvIssues_filter_comprimento (r : CsvRaw) :
    (csvIssues r).filter (fun is => is.path == "comprimento") =
      dimIssues "comprimento" r.comprimento := by
  unfold csvIssues
  simp only [List.filter_append]
  rw [filter_path_of_all (fun _ h => mem_clientCodeIssues h) (by decide),
      filter_path_of_all (fun _ h => mem_clientNameIssues h) (by decide),
      filter_path_of_all (fun _ h => mem_projectNameIssues h) (by decide),
      filter_path_of_all (fun _ h => mem_barcodeIssues h) (by decide),
      filter_path_self (fun _ h => mem_dimIssues h),
      filter_path_of_all (fun _ h => mem_dimIssues h) (by decide),
      filter_path_of_all (fun _ h => mem_dimIssues h) (by decide)]
  simp

theorem csvIssues_filter_largura (r : CsvRaw) :
    (csvIssues r).filter (fun is => is.path == "largura") =
      dimIssues "largura" r.largura := by
  unfold csvIssues
  simp only [List.filter_append]
  rw [filter_path_of_all (fun _ h => mem_clientCodeIssues h) (by decide),
      filter_path_of_all (fun _ h => mem_clientNameIssues h) (by decide),
      filter_path_of_all (fun _ h => mem_projectNameIssues h) (by decide),
      filter_path_of_all (fun _ h => mem_barcodeIssues h) (by decide),
      filter_path_of_all (fun _ h => mem_dimIssues h) (by decide),
      filter_path_self (fun _ h => mem_dimIssues h),
      filter_path_of_all (fun _ h => mem_dimIssues h) (by decide)]
  simp

theorem csvIssues_filter_espessura (r : CsvRaw) :
    (csvIssues r).filter (fun is => is.path == "espessura") =
      dimIssues "espessura" r.espessura := by
  unfold csvIssues
  simp only [List.filter_append]
  rw [filter_path_of_all (fun _ h => mem_clientCodeIssues h) (by decide),
      filter_path_of_all (fun _ h => mem_clientNameIssues h) (by decide),
      filter_path_of_all (fun _ h => mem_projectNameIssues h) (by decide),
      filter_path_of_all (fun _ h => mem_barcodeIssues h) (by decide),
      filter_path_of_all (fun _ h => mem_dimIssues h) (by decide),
      filter_path_of_all (fun _ h => mem_dimIssues h) (by decide),
      filter_path_self (fun _ h => mem_dimIssues h)]
  simp

theorem mapZod_field (is : ZodIssue) (n : Nat) (ctx : ImportCtx) :
    (mapZodErrorToImportError is n ctx).field = some is.path := rfl

theorem mapZod_type_barcode_iff (is : ZodIssue) (n : Nat) (ctx : ImportCtx) :
    (mapZodErrorToImportError is n ctx).type = ImportErrorType.INVALID_BARCODE_FORMAT ↔
      is.path = "barcode" := by
  unfold mapZodErrorToImportError
  by_cases h1 : is.path = "barcode" <;>
    by_cases h2 : is.path = "comprimento" ∨ is.path = "largura" <;>
      by_cases h3 : is.path = "clientName" ∨ is.path = "cliente" <;>
        simp_all

theorem mapZod_type_barcode_beq (is : ZodIssue) (n : Nat) (ctx : ImportCtx) :
    ((mapZodErrorToImportError is n ctx).type == ImportErrorType.INVALID_BARCODE_FORMAT) =
      (is.path == "barcode") := by
  rw [Bool.eq_iff_iff]
  simp only [beq_iff_eq]
  exact mapZod_type_barcode_iff is n ctx

theorem mapZod_field_beq (is : ZodIssue) (n : Nat) (ctx : ImportCtx) (fld : String) :
    ((mapZodErrorToImportError is n ctx).field == some fld) = (is.path == fld) := by
  rw [Bool.eq_iff_iff]
  simp only [beq_iff_eq, mapZod_field, Option.some_inj]

/-- Reduction of the row loop body on a non-empty, wide-enough line whose
validation fails: all issues are recorded and no record is produced. -/
theorem rowStep_invalid (i : Nat) (line : String)
    (hne : jsTrim line ≠ "")
    (hcols : ¬((parseCols (jsTrim line)).length < 17))
    (hiss : csvIssues (rawOfCols (parseCols (jsTrim line))) ≠ []) :
    rowStep i line =
      ((csvIssues (rawOfCols (parseCols (jsTrim line)))).map
        (fun is => mapZodErrorToImportError is (i + 1) ImportCtx.CSV), []) := by
  unfold rowStep
  rw [if_neg hne, if_neg hcols]
  have hval : validateCsvRow (rawOfCols (parseCols (jsTrim line))) =
      .error (csvIssues (rawOfCols (parseCols (jsTrim line)))) := by
    unfold validateCsvRow
    split
    · rename_i heq
      exact absurd heq hiss
    · rfl
  rw [hval]

/-! ## Claim C4 -/

/-- C4: a row with at least 17 columns whose barcode, after trimming, is
shorter than 3 characters gets exactly one `INVALID_BARCODE_FORMAT`
`ImportError`, of severity `ERROR`, for the `barcode` field (and the row
produces no record). -/
theorem c4_short_barcode_single_error (i : Nat) (line : String)
    (hne : jsTrim line ≠ "")
    (hcols : ¬((parseCols (jsTrim line)).length < 17))
    (hshort : (jsTrim ((parseCols (jsTrim line)).getD 11 "")).length < 3) :
    (((rowStep i line).1.filter
        (fun e => e.type == ImportErrorType.INVALID_BARCODE_FORMAT)).map
      (fun e => (e.severity, e.field))) =
      [(ImportErrorSeverity.ERROR, some "barcode")] ∧
    (rowStep i line).2 = [] := by
  have hbar : barcodeIssues "barcode" (rawOfCols (parseCols (jsTrim line))).barcode ≠ [] := by
    unfold barcodeIssues
    split
    · simp
    · split
      · simp
      · rename_i h1 h2
        exact absurd hshort h2
  have hiss : csvIssues (rawOfCols (parseCols (jsTrim line))) ≠ [] := by
    unfold csvIssues
    intro h
    simp only [List.append_eq_nil] at h
    exact hbar h.1.1.1.2
  rw [rowStep_invalid i line hne hcols hiss]
  refine ⟨?_, rfl⟩
  rw [List.filter_map]
  simp only [Function.comp_def]
  rw [List.filter_congr (fun is _ => mapZod_type_barcode_beq is (i + 1) ImportCtx.CSV),
      csvIssues_filter_barcode]
  unfold barcodeIssues
  split
  · simp [mapZodErrorToImportError]
  · split
    · simp [mapZodErrorToImportError]
    · rename_i h1 h2
      exact absurd hshort h2

/-- Witness for C4: a 17-column line whose barcode column 11 is `ab`. -/
theorem c4_witness :
    (((rowStep 1 "x,x,MOD,NAME,10,20,18,x,PROJ,MAT,COLOR,ab,x,ACME,x,x,C001").1.filter
        (fun e => e.type == ImportErrorType.INVALID_BARCODE_FORMAT)).map
      (fun e => (e.severity, e.field))) =
      [(ImportErrorSeverity.ERROR, some "barcode")] ∧
    (rowStep 1 "x,x,MOD,NAME,10,20,18,x,PROJ,MAT,COLOR,ab,x,ACME,x,x,C001").2 = [] :=
  c4_short_barcode_single_error 1 "x,x,MOD,NAME,10,20,18,x,PROJ,MAT,COLOR,ab,x,ACME,x,x,C001"
    (by decide) (by decide) (by decide)

/-! ## Claim C3 -/

/-- C3 counterexample: the claim says a row with a malformed dimension
(`comprimento = "abc"`) "is still imported with the offending dimension
defaulted"; on this 17-column row the validator records the
`INVALID_MEASUREMENTS` warning but produces zero records — the row is
skipped, not imported. -/
theorem c3_counterexample :
    ((rowStep 1 "x,x,MOD,NAME,abc,100,18,x,PROJ,MAT,COLOR,BC123,x,ACME,x,x,C001").1.map
      (fun e => (e.type, e.severity, e.field))) =
      [(ImportErrorType.INVALID_MEASUREMENTS, ImportErrorSeverity.WARNING,
        some "comprimento")] ∧
    (rowStep 1 "x,x,MOD,NAME,abc,100,18,x,PROJ,MAT,COLOR,BC123,x,ACME,x,x,C001").2 = [] := by
  decide

/-- C3 amended: a row (with at least 17 columns) whose `comprimento` or
`largura` fails the dimension schema gets exactly one
`INVALID_MEASUREMENTS` error of severity `WARNING` for that field, but the
row is NOT imported: it is skipped with no record produced.  An `espessura`
failure likewise skips the row but is recorded as a generic
`VALIDATION_ERROR` of severity `ERROR` (the error mapper only downgrades
`comprimento`/`largura`).  Only rows that pass validation are imported, and
only an empty dimension is defaulted to `0` in the stored `medidas`. -/
theorem c3_invalid_dimension_warns_and_skips (i : Nat) (line : String)
    (hne : jsTrim line ≠ "")
    (hcols : ¬((parseCols (jsTrim line)).length < 17)) :
    (dimensionParse ((parseCols (jsTrim line)).getD 4 "") = none →
      (((rowStep i line).1.filter (fun e => e.field == some "comprimento")).map
        (fun e => (e.type, e.severity))) =
        [(ImportErrorType.INVALID_MEASUREMENTS, ImportErrorSeverity.WARNING)] ∧
      (rowStep i line).2 = []) ∧
    (dimensionParse ((parseCols (jsTrim line)).getD 5 "") = none →
      (((rowStep i line).1.filter (fun e => e.field == some "largura")).map
        (fun e => (e.type, e.severity))) =
        [(ImportErrorType.INVALID_MEASUREMENTS, ImportErrorSeverity.WARNING)] ∧
      (rowStep i line).2 = []) ∧
    (dimensionParse ((parseCols (jsTrim line)).getD 6 "") = none →
      (((rowStep i line).1.filter (fun e => e.field == some "espessura")).map
        (fun e => (e.type, e.severity))) =
        [(ImportErrorType.VALIDATION_ERROR, ImportErrorSeverity.ERROR)] ∧
      (rowStep i line).2 = []) := by
  refine ⟨fun hbad => ?_, fun hbad => ?_, fun hbad => ?_⟩
  · have hdim : dimIssues "comprimento" (rawOfCols (parseCols (jsTrim line))).comprimento =
        [⟨"comprimento", "Invalid input", "invalid_union"⟩] := by
      unfold dimIssues rawOfCols
      rw [hbad]
    have hiss : csvIssues (rawOfCols (parseCols (jsTrim line))) ≠ [] := by
      unfold csvIssues
      intro h
      simp only [List.append_eq_nil] at h
      rw [hdim] at h
      simp at h
    rw [rowStep_invalid i line hne hcols hiss]
    refine ⟨?_, rfl⟩
    rw [List.filter_map]
    simp only [Function.comp_def]
    rw [List.filter_congr (fun is _ => mapZod_field_beq is (i + 1) ImportCtx.CSV "comprimento"),
        csvIssues_filter_comprimento, hdim]
    simp [mapZodErrorToImportError]
  · have hdim : dimIssues "largura" (rawOfCols (parseCols (jsTrim line))).largura =
        [⟨"largura", "Invalid input", "invalid_union"⟩] := by
      unfold dimIssues rawOfCols
      rw [hbad]
    have hiss : csvIssues (rawOfCols (parseCols (jsTrim line))) ≠ [] := by
      unfold csvIssues
      intro h
      simp only [List.append_eq_nil] at h
      rw [hdim] at h
      simp at h
    rw [rowStep_invalid i line hne hcols hiss]
    refine ⟨?_, rfl⟩
    rw [List.filter_map]
    simp only [Function.comp_def]
    rw [List.filter_congr (fun is _ => mapZod_field_beq is (i + 1) ImportCtx.CSV "largura"),
        csvIssues_filter_largura, hdim]
    simp [mapZodErrorToImportError]
  · have hdim : dimIssues "espessura" (rawOfCols (parseCols (jsTrim line))).espessura =
        [⟨"espessura", "Invalid input", "invalid_union"⟩] := by
      unfold dimIssues rawOfCols
      rw [hbad]
    have hiss : csvIssues (rawOfCols (parseCols (jsTrim line))) ≠ [] := by
      unfold csvIssues
      intro h
      simp only [List.append_eq_nil] at h
      rw [hdim] at h
      simp at h
    rw [rowStep_invalid i line hne hcols hiss]
    refine ⟨?_, rfl⟩
    rw [List.filter_map]
    simp only [Function.comp_def]
    rw [List.filter_congr (fun is _ => mapZod_field_beq is (i + 1) ImportCtx.CSV "espessura"),
        csvIssues_filter_espessura, hdim]
    simp [mapZodErrorToImportError]

/-- Witness for the amended C3: a 17-column row whose `comprimento` is
`abc`. -/
theorem c3_witness :
    (((rowStep 1 "x,x,MOD,NAME,abc,100,18,x,PROJ,MAT,COLOR,BC123,x,ACME,x,x,C001").1.filter
        (fun e => e.field == some "comprimento")).map
      (fun e => (e.type, e.severity))) =
      [(ImportErrorType.INVALID_MEASUREMENTS, ImportErrorSeverity.WARNING)] ∧
    (rowStep 1 "x,x,MOD,NAME,abc,100,18,x,PROJ,MAT,COLOR,BC123,x,ACME,x,x,C001").2 = [] :=
  (c3_invalid_dimension_warns_and_skips 1
      "x,x,MOD,NAME,abc,100,18,x,PROJ,MAT,COLOR,BC123,x,ACME,x,x,C001"
      (by decide) (by decide)).1 (by decide)

/-! ## Sanitizer character lemmas (for C10) -/

theorem mem_trimChars {l : List Char} {c : Char} (h : c ∈ trimChars l) : c ∈ l := by
  unfold trimChars at h
  rw [List.mem_reverse] at h
  have h1 := (List.dropWhile_sublist _).mem h
  rw [List.mem_reverse] at h1
  exact (List.dropWhile_sublist _).mem h1

theorem upperChar_good (c : Char) (h : isBarcodeChar c = true) :
    isBarcodeChar (upperChar c) = true ∧
      ¬(97 ≤ (upperChar c).toNat ∧ (upperChar c).toNat ≤ 122) := by
  unfold upperChar
  by_cases hl : 97 ≤ c.toNat ∧ c.toNat ≤ 122
  · rw [if_pos hl]
    obtain ⟨ha, hb⟩ := hl
    have hc : c.toNat - 32 = c.toNat - 32 := rfl
    set m := c.toNat - 32 with hm
    have hm1 : 65 ≤ m := by omega
    have hm2 : m ≤ 90 := by omega
    clear hm ha hb h hc
    interval_cases m <;> decide
  · rw [if_neg hl]
    unfold isBarcodeChar at h ⊢
    simp only [Bool.or_eq_true, Bool.and_eq_true, decide_eq_true_eq, beq_iff_eq] at h ⊢
    omega

theorem sanitize_chars_good (s : String) (c : Char)
    (h : c ∈ (sanitizeBarcode s).data) :
    isBarcodeChar c = true ∧ ¬(97 ≤ c.toNat ∧ c.toNat ≤ 122) := by
  unfold sanitizeBarcode at h
  obtain ⟨c0, hc0, rfl⟩ := List.mem_map.mp h
  have h1 : c0 ∈ (s.data.filter isBarcodeChar).take 100 := mem_trimChars hc0
  have h2 : c0 ∈ s.data.filter isBarcodeChar := List.take_subset _ _ h1
  exact upperChar_good c0 (List.mem_filter.mp h2).2

theorem string_append_right_inj (a x y : String) (h : a ++ x = a ++ y) : x = y := by
  have hd := congrArg String.data h
  rw [String.data_append, String.data_append] at hd
  exact String.ext (List.append_cancel_left hd)

/-! ## Claim C7 -/

/-- C7: scanning a barcode whose piece is already `PRODUZIDA` is rejected
with the "already scanned" error and performs no write: the store (hence the
piece's status, `producedAt`, `producedBy` and `scanHistory`) is unchanged. -/
theorem c7_produced_scan_rejected_no_write (st : ScanState) (input now user : String)
    (p : Piece)
    (hlen : 3 ≤ (sanitizeBarcode input).length)
    (hscan : st.isScanning = false)
    (hfound : st.store (st.ws ++ "_" ++ sanitizeBarcode input) = some p)
    (hstatus : p.status = PieceStatus.PRODUZIDA) :
    (handleScan st input now user).store = st.store ∧
    (handleScan st input now user).lastMsg =
      some { mtype := MsgType.error, text := "Esta peça já foi bipada!", data := some p } := by
  have hguard : ¬(sanitizeBarcode input = "" ∨ (sanitizeBarcode input).length < 3) := by
    rintro (h | h)
    · rw [h] at hlen
      simp at hlen
    · omega
  simp [handleScan, hguard, hscan, hfound, hstatus]

/-- Witness for C7: scanning `abc` against a store holding the produced
piece `WS_ABC`. -/
theorem c7_witness :
    (handleScan c7FixtureState "abc" "t" "u").store = c7FixtureState.store ∧
    (handleScan c7FixtureState "abc" "t" "u").lastMsg =
      some { mtype := MsgType.error, text := "Esta peça já foi bipada!",
             data := some c7FixturePiece } :=
  c7_produced_scan_rejected_no_write c7FixtureState "abc" "t" "u" c7FixturePiece
    (by decide) rfl (by decide) rfl

/-! ## Claim C10 -/

/-- C10: the scan workflow looks a piece up at `ws + '_' + sanitizeBarcode(input)`
while the CSV import stores it at `ws + '_' + barcode` with the trimmed,
case-preserved barcode.  Since every character of a sanitized barcode is in
`[A-Z0-9_-]`, a CSV-imported piece whose stored barcode contains a lowercase
letter or any character outside the sanitizer's class can never be resolved
by any scan input, and `handleScan` never writes to its document, so it can
never be marked `PRODUZIDA` by scanning. -/
theorem c10_csv_lowercase_barcode_unscannable (b : String) (st : ScanState)
    (input now user : String)
    (hbad : ∃ c ∈ b.data, (97 ≤ c.toNat ∧ c.toNat ≤ 122) ∨ isBarcodeChar c = false) :
    (∀ (v : CsvValid), v.barcode = b → (buildPiece st.ws v).id = st.ws ++ "_" ++ b) ∧
    st.ws ++ "_" ++ sanitizeBarcode input ≠ st.ws ++ "_" ++ b ∧
    (handleScan st input now user).store (st.ws ++ "_" ++ b) =
      st.store (st.ws ++ "_" ++ b) := by
  have hne : sanitizeBarcode input ≠ b := by
    intro heq
    obtain ⟨c, hc, hcbad⟩ := hbad
    rw [← heq] at hc
    have hgood := sanitize_chars_good input c hc
    rcases hcbad with h | h
    · exact hgood.2 h
    · rw [hgood.1] at h
      exact absurd h (by decide)
  have hkey : st.ws ++ "_" ++ sanitizeBarcode input ≠ st.ws ++ "_" ++ b := by
    intro h
    exact hne (string_append_right_inj (st.ws ++ "_") _ _ h)
  refine ⟨fun v hv => by simp [buildPiece, hv], hkey, ?_⟩
  unfold handleScan
  by_cases hg : sanitizeBarcode input = "" ∨ (sanitizeBarcode input).length < 3
  · rw [if_pos hg]
  · rw [if_neg hg]
    by_cases hs : st.isScanning
    · rw [if_pos hs]
    · rw [if_neg hs]
      cases hst : st.store (st.ws ++ "_" ++ sanitizeBarcode input) with
      | none => simp [hst]
      | some piece =>
        by_cases hp : piece.status = PieceStatus.PRODUZIDA
        · simp [hst, hp]
        · simp [hst, hp, setPieceDoc]
          intro hh
          exact absurd hh.symm hkey

/-- Witness for C10: the stored barcode `abc` (lowercase) can never match a
sanitized scan of any input; shown here for the scan input `abc` itself and
a concrete record with that barcode. -/
theorem c10_witness :
    (buildPiece c7FixtureState.ws ⟨"C1", "A", "P", "abc", "", "", "", "", "", "", ""⟩).id =
      c7FixtureState.ws ++ "_" ++ "abc" ∧
    (c7FixtureState.ws ++ "_" ++ sanitizeBarcode "abc" =
      c7FixtureState.ws ++ "_" ++ "abc") = False ∧
    (handleScan c7FixtureState "abc" "t" "u").store (c7FixtureState.ws ++ "_" ++ "abc") =
      c7FixtureState.store (c7FixtureState.ws ++ "_" ++ "abc") :=
  have h := c10_csv_lowercase_barcode_unscannable "abc" c7FixtureState "abc" "t" "u" (by decide)
  ⟨h.1 ⟨"C1", "A", "P", "abc", "", "", "", "", "", "", ""⟩ rfl, eq_false h.2.1, h.2.2⟩

/-! ## Aggregation lemmas (for C9) -/

@[simp] theorem previewFor_clientCode (ps : List Piece) (ci : ClientInfo) :
    (previewFor ps ci).clientCode = ci.clientCode := rfl

@[simp] theorem setAdd_nil (m : String) : setAdd [] m = [m] := rfl

theorem lookupStat_nil (pr : String) : lookupStat [] pr = none := rfl

theorem find?_isSome_eq_lookupStat (st : List (String × ProjStat)) (k : String) :
    (st.find? (fun e => e.1 == k)).isSome = (lookupStat st k).isSome := by
  induction st with
  | nil => rfl
  | cons e tl ih =>
    rw [lookupStat]
    by_cases h : e.1 == k <;> simp [List.find?, h, ih]

theorem lookupStat_mapUpd (st : List (String × ProjStat)) (p : Piece) (pr : String) :
    lookupStat (st.map (fun e =>
      if e.1 == p.projeto then
        (e.1, { pieceCount := e.2.pieceCount + 1, modules := setAdd e.2.modules p.modulo })
      else e)) pr =
      if p.projeto == pr then
        (lookupStat st pr).map (fun s =>
          { pieceCount := s.pieceCount + 1, modules := setAdd s.modules p.modulo })
      else lookupStat st pr := by
  induction st with
  | nil =>
    simp only [List.map_nil, lookupStat_nil]
    split <;> rfl
  | cons e tl ih =>
    simp only [List.map_cons, lookupStat]
    by_cases h1 : e.1 == p.projeto
    · by_cases h2 : e.1 == pr
      · have h3 : (p.projeto == pr) = true := by
          have he1 : e.1 = p.projeto := by simpa using h1
          have he2 : e.1 = pr := by simpa using h2
          simp only [beq_iff_eq]
          rw [← he1]
          exact he2
        rw [if_pos h1]
        dsimp only
        rw [if_pos h2, if_pos h3, if_pos h2]
        rfl
      · have h3 : ¬(p.projeto == pr) = true := by
          have he1 : e.1 = p.projeto := by simpa using h1
          have hne : e.1 ≠ pr := by simpa using h2
          simp only [beq_iff_eq]
          rw [← he1]
          exact hne
        rw [if_pos h1]
        dsimp only
        rw [if_neg h2, if_neg h3, if_neg h2, ih, if_neg h3]
    · by_cases h2 : e.1 == pr
      · have h3 : ¬(p.projeto == pr) = true := by
          have he2 : e.1 = pr := by simpa using h2
          have hne : e.1 ≠ p.projeto := by simpa using h1
          simp only [beq_iff_eq]
          intro hh
          exact hne (by rw [he2, hh])
        rw [if_neg h1, if_pos h2, if_neg h3, if_pos h2]
      · rw [if_neg h1, if_neg h2, ih, if_neg h2]

theorem lookupStat_append_single (st : List (String × ProjStat)) (k : String)
    (v : ProjStat) (pr : String) :
    lookupStat (st ++ [(k, v)]) pr =
      match lookupStat st pr with
      | some s => some s
      | none => if k == pr then some v else none := by
  induction st with
  | nil =>
    simp only [List.nil_append, lookupStat, lookupStat_nil]
  | cons e tl ih =>
    simp only [List.cons_append, lookupStat, List.append_eq]
    by_cases h : e.1 == pr
    · rw [if_pos h, if_pos h]
    · rw [if_neg h, if_neg h, ih]

theorem lookupStat_statsStep (st : List (String × ProjStat)) (p : Piece) (pr : String) :
    lookupStat (statsStep st p) pr =
      match lookupStat st pr with
      | some s =>
        if p.projeto == pr then
          some { pieceCount := s.pieceCount + 1, modules := setAdd s.modules p.modulo }
        else some s
      | none =>
        if p.projeto == pr then some { pieceCount := 1, modules := [p.modulo] }
        else none := by
  unfold statsStep
  by_cases hhas : ((st.find? (fun e => e.1 == p.projeto)).isSome) = true
  · rw [if_pos hhas, lookupStat_mapUpd]
    by_cases hpr : p.projeto == pr
    · rw [if_pos hpr]
      cases h : lookupStat st pr with
      | some s => simp [h, hpr]
      | none =>
        rw [find?_isSome_eq_lookupStat] at hhas
        have heq : p.projeto = pr := by simpa using hpr
        rw [heq, h] at hhas
        simp at hhas
    · rw [if_neg hpr]
      cases h : lookupStat st pr <;> simp [h, hpr]
  · rw [if_neg hhas, lookupStat_append_single]
    by_cases hpr : p.projeto == pr
    · have heq : p.projeto = pr := by simpa using hpr
      have hnone : lookupStat st pr = none := by
        rw [find?_isSome_eq_lookupStat] at hhas
        rw [← heq]
        exact Option.not_isSome_iff_eq_none.mp hhas
      rw [hnone]
    · cases h : lookupStat st pr <;> simp [h, hpr]

theorem lookupStat_foldl (ps : List Piece) (acc : List (String × ProjStat)) (pr : String) :
    lookupStat (ps.foldl statsStep acc) pr =
      match lookupStat acc pr with
      | some s =>
        some { pieceCount := s.pieceCount + (ps.filter (fun p => p.projeto == pr)).length,
               modules := ((ps.filter (fun p => p.projeto == pr)).map
                 (fun p => p.modulo)).foldl setAdd s.modules }
      | none =>
        if (ps.filter (fun p => p.projeto == pr)).length = 0 then none
        else
          some { pieceCount := (ps.filter (fun p => p.projeto == pr)).length,
                 modules := ((ps.filter (fun p => p.projeto == pr)).map
                   (fun p => p.modulo)).foldl setAdd [] } := by
  induction ps generalizing acc with
  | nil => cases h : lookupStat acc pr <;> simp [h]
  | cons p tl ih =>
    rw [List.foldl_cons, ih, lookupStat_statsStep]
    by_cases hpr : p.projeto == pr
    · cases h : lookupStat acc pr with
      | some s =>
        simp only [List.filter_cons, if_pos hpr, List.map_cons, List.foldl_cons,
          List.length_cons]
        have harith : s.pieceCount + 1 + (tl.filter (fun p => p.projeto == pr)).length =
            s.pieceCount + ((tl.filter (fun p => p.projeto == pr)).length + 1) := by omega
        rw [harith]
      | none =>
        simp only [List.filter_cons, if_pos hpr, List.map_cons, List.foldl_cons,
          List.length_cons, setAdd_nil]
        rw [if_neg (by omega : ¬((tl.filter (fun p => p.projeto == pr)).length + 1 = 0))]
        rw [Nat.add_comm 1 ((tl.filter (fun p => p.projeto == pr)).length)]
    · cases h : lookupStat acc pr with
      | some s =>
        simp only [List.filter_cons, if_neg hpr]
      | none =>
        simp only [List.filter_cons, if_neg hpr]

theorem projStatsOf_eq (pieces : List Piece) (pr : String) :
    projStatsOf pieces pr =
      if (pieces.filter (fun p => p.projeto == pr)).length = 0 then none
      else
        some ((pieces.filter (fun p => p.projeto == pr)).length,
          (((pieces.filter (fun p => p.projeto == pr)).map
            (fun p => p.modulo)).foldl setAdd []).length) := by
  unfold projStatsOf
  rw [lookupStat_foldl, lookupStat_nil]
  dsimp only
  by_cases hc : (pieces.filter (fun p => p.projeto == pr)).length = 0
  · rw [if_pos hc, if_pos hc]
    rfl
  · rw [if_neg hc, if_neg hc]
    rfl

theorem setAdd_nodup {l : List String} {m : String} (h : l.Nodup) : (setAdd l m).Nodup := by
  unfold setAdd
  split
  · exact h
  · rename_i hm
    simp [List.nodup_append, h, hm]

theorem setAdd_toFinset (l : List String) (m : String) :
    (setAdd l m).toFinset = insert m l.toFinset := by
  unfold setAdd
  split
  · rename_i hm
    rw [Finset.insert_eq_self.mpr (List.mem_toFinset.mpr hm)]
  · rw [List.toFinset_append]
    simp [Finset.insert_eq, Finset.union_comm]

theorem foldl_setAdd_nodup (ms : List String) (acc : List String) (h : acc.Nodup) :
    (ms.foldl setAdd acc).Nodup := by
  induction ms generalizing acc with
  | nil => exact h
  | cons m ms ih => exact ih _ (setAdd_nodup h)

theorem foldl_setAdd_toFinset (ms : List String) (acc : List String) :
    (ms.foldl setAdd acc).toFinset = acc.toFinset ∪ ms.toFinset := by
  induction ms generalizing acc with
  | nil => simp
  | cons m ms ih =>
    rw [List.foldl_cons, ih, setAdd_toFinset, List.toFinset_cons,
      Finset.insert_union, Finset.union_insert]

theorem foldl_setAdd_length_perm {ms ms' : List String} (h : ms.Perm ms') :
    (ms.foldl setAdd []).length = (ms'.foldl setAdd []).length := by
  have hcard : ∀ (l : List String),
      (l.foldl setAdd []).length = l.toFinset.card := by
    intro l
    rw [← List.toFinset_card_of_nodup (foldl_setAdd_nodup l [] (by simp))]
    rw [foldl_setAdd_toFinset]
    simp
  rw [hcard, hcard]
  congr 1
  ext a
  simp only [List.mem_toFinset]
  exact h.mem_iff

theorem projStatsOf_perm {pieces pieces' : List Piece} (h : pieces.Perm pieces')
    (pr : String) : projStatsOf pieces pr = projStatsOf pieces' pr := by
  rw [projStatsOf_eq, projStatsOf_eq]
  have hf : (pieces.filter (fun p => p.projeto == pr)).Perm
      (pieces'.filter (fun p => p.projeto == pr)) := h.filter _
  rw [hf.length_eq]
  split
  · rfl
  · rw [foldl_setAdd_length_perm (hf.map (fun p => p.modulo))]

/-! ## Client-map lemmas (for C9) -/

theorem find?_updProjects (m : List ClientInfo) (r : CsvValid) (code : String) :
    ((m.map (fun ci =>
      if ci.clientCode == r.clientCode then
        { ci with projects := setAdd ci.projects r.projectName }
      else ci)).find? (fun ci => ci.clientCode == code)).map (fun ci => ci.clientName) =
      (m.find? (fun ci => ci.clientCode == code)).map (fun ci => ci.clientName) := by
  induction m with
  | nil => rfl
  | cons ci tl ih =>
    simp only [List.map_cons, List.find?_cons]
    by_cases h1 : ci.clientCode == r.clientCode
    · rw [if_pos h1]
      by_cases h2 : ci.clientCode == code
      · rw [h2]
        rfl
      · have h2f : (ci.clientCode == code) = false := by simpa using h2
        rw [h2f, ih]
    · rw [if_neg h1]
      by_cases h2 : ci.clientCode == code
      · rw [h2]
      · have h2f : (ci.clientCode == code) = false := by simpa using h2
        rw [h2f, ih]

theorem find?_clientStep_name (m : List ClientInfo) (r : CsvValid) (code : String) :
    ((clientStep m r).find? (fun ci => ci.clientCode == code)).map (fun ci => ci.clientName) =
      match m.find? (fun ci => ci.clientCode == code) with
      | some ci => some ci.clientName
      | none => if r.clientCode == code then some r.clientName else none := by
  unfold clientStep
  by_cases hhas : ((m.find? (fun ci => ci.clientCode == r.clientCode)).isSome) = true
  · rw [if_pos hhas, find?_updProjects]
    cases h : m.find? (fun ci => ci.clientCode == code) with
    | some ci => rfl
    | none =>
      by_cases hc : r.clientCode == code
      · exfalso
        have heq : r.clientCode = code := by simpa using hc
        rw [heq, h] at hhas
        simp at hhas
      · rw [if_neg hc]
        rfl
  · rw [if_neg hhas, List.find?_append]
    cases h : m.find? (fun ci => ci.clientCode == code) with
    | some ci => rfl
    | none =>
      simp only [Option.none_or, List.find?_cons]
      by_cases hc : r.clientCode == code
      · rw [hc]
        rfl
      · have hcf : (r.clientCode == code) = false := by simpa using hc
        rw [hcf]
        rfl

theorem foldl_clientStep_name (l : List CsvValid) (acc : List ClientInfo) (code : String) :
    ((l.foldl clientStep acc).find? (fun ci => ci.clientCode == code)).map
        (fun ci => ci.clientName) =
      match (acc.find? (fun ci => ci.clientCode == code)).map (fun ci => ci.clientName) with
      | some nm => some nm
      | none => (l.find? (fun r => r.clientCode == code)).map (fun r => r.clientName) := by
  induction l generalizing acc with
  | nil =>
    cases h : (acc.find? (fun ci => ci.clientCode == code)).map (fun ci => ci.clientName) with
    | some nm => simp [h]
    | none => simp [h]
  | cons r l ih =>
    rw [List.foldl_cons, ih, find?_clientStep_name]
    cases h : acc.find? (fun ci => ci.clientCode == code) with
    | some ci => rfl
    | none =>
      by_cases hc : r.clientCode == code
      · rw [if_pos hc]
        simp [List.find?_cons, hc]
      · have hcf : (r.clientCode == code) = false := by simpa using hc
        rw [if_neg hc]
        simp [List.find?_cons, hcf]

theorem lookupStat_eq_find? (st : List (String × ProjStat)) (pr : String) :
    lookupStat st pr = (st.find? (fun e => e.1 == pr)).map (fun e => e.2) := by
  induction st with
  | nil => rfl
  | cons e tl ih =>
    rw [lookupStat, List.find?_cons]
    by_cases h : e.1 == pr
    · rw [if_pos h, h]
      rfl
    · have hf : (e.1 == pr) = false := by simpa using h
      rw [if_neg h, hf, ih]

theorem previewFor_query (pieces : List Piece) (ci : ClientInfo) (pr : String) :
    (((previewFor pieces ci).projects.find? (fun e => e.name == pr)).map
      (fun e => (e.pieceCount, e.moduleCount))) =
      projStatsOf (pieces.filter (fun p => p.cliente == ci.clientName)) pr := by
  unfold previewFor projStatsOf
  rw [List.find?_map, lookupStat_eq_find?]
  simp only [Function.comp_def, Option.map_map]

theorem aggQuery_eq (ws : String) (l : List CsvValid) (code pr : String) :
    aggQuery ws l code pr =
      match l.find? (fun r => r.clientCode == code) with
      | none => none
      | some r =>
        projStatsOf ((l.map (buildPiece ws)).filter
          (fun p => p.cliente == r.clientName)) pr := by
  unfold aggQuery aggregateCsv
  rw [List.find?_map]
  simp only [Function.comp_def, previewFor_clientCode]
  have hn := foldl_clientStep_name l [] code
  cases hfi : (l.foldl clientStep []).find? (fun ci => ci.clientCode == code) with
  | none =>
    rw [hfi] at hn
    simp only [List.find?_nil, Option.map_none'] at hn
    cases hl : l.find? (fun r => r.clientCode == code) with
    | none => rfl
    | some r =>
      rw [hl] at hn
      simp at hn
  | some ci =>
    rw [hfi] at hn
    simp only [List.find?_nil, Option.map_none'] at hn
    cases hl : l.find? (fun r => r.clientCode == code) with
    | none =>
      rw [hl] at hn
      simp at hn
    | some r =>
      rw [hl] at hn
      have hname : ci.clientName = r.clientName := by
        simpa using hn
      simp only [Option.map_some']
      rw [previewFor_query, hname]

/-! ## Claim C9 -/

/-- C9 counterexample: three valid records sharing the client code `C1` but
with inconsistent client names (`A`, `B`, `A`).  For the original order the
preview for client code `C1` lists project `Q` with one piece and one
module; after swapping the first two rows (a permutation) the `clientMap`
keeps name `B` for `C1`, the preview filters the pieces by `B`, and project
`Q` disappears from the aggregation — so aggregation is not order-invariant
as claimed. -/
theorem c9_counterexample :
    ([⟨"C1", "B", "P", "BAR02", "", "", "", "", "", "", ""⟩,
      ⟨"C1", "A", "P", "BAR01", "", "", "", "", "", "", ""⟩,
      ⟨"C1", "A", "Q", "BAR03", "", "", "", "", "", "", ""⟩] : List CsvValid).Perm
      [⟨"C1", "A", "P", "BAR01", "", "", "", "", "", "", ""⟩,
       ⟨"C1", "B", "P", "BAR02", "", "", "", "", "", "", ""⟩,
       ⟨"C1", "A", "Q", "BAR03", "", "", "", "", "", "", ""⟩] ∧
    aggQuery "WS"
      [⟨"C1", "A", "P", "BAR01", "", "", "", "", "", "", ""⟩,
       ⟨"C1", "B", "P", "BAR02", "", "", "", "", "", "", ""⟩,
       ⟨"C1", "A", "Q", "BAR03", "", "", "", "", "", "", ""⟩] "C1" "Q" = some (1, 1) ∧
    aggQuery "WS"
      [⟨"C1", "B", "P", "BAR02", "", "", "", "", "", "", ""⟩,
       ⟨"C1", "A", "P", "BAR01", "", "", "", "", "", "", ""⟩,
       ⟨"C1", "A", "Q", "BAR03", "", "", "", "", "", "", ""⟩] "C1" "Q" = none := by
  decide

/-- C9 amended: the Aggregator is a pure reduction, and it is
order-invariant on every record list in which the client code determines
the client name (any two records with equal `clientCode` have equal
`clientName` — in particular every single-client export): for every
permutation of such a list the preview reports the same per-client,
per-project piece count and distinct-module count.  Without that
consistency requirement order-invariance fails, because `clientMap` keeps
the first name seen for a code while the per-client piece filter matches on
name. -/
theorem c9_aggregation_order_invariant_when_client_consistent (ws : String)
    (l l' : List CsvValid) (hperm : l.Perm l')
    (hcons : ∀ r ∈ l, ∀ r' ∈ l, r.clientCode = r'.clientCode →
      r.clientName = r'.clientName)
    (code pr : String) :
    aggQuery ws l code pr = aggQuery ws l' code pr := by
  rw [aggQuery_eq, aggQuery_eq]
  cases h1 : l.find? (fun r => r.clientCode == code) with
  | none =>
    have h2 : l'.find? (fun r => r.clientCode == code) = none := by
      rw [List.find?_eq_none] at h1 ⊢
      intro a ha
      exact h1 a (hperm.mem_iff.mpr ha)
    rw [h2]
  | some r =>
    have hrmem : r ∈ l := List.mem_of_find?_eq_some h1
    cases h2 : l'.find? (fun r => r.clientCode == code) with
    | none =>
      rw [List.find?_eq_none] at h2
      exact absurd (List.find?_some h1) (h2 r (hperm.mem_iff.mp hrmem))
    | some r'' =>
      have hr''mem : r'' ∈ l := hperm.mem_iff.mpr (List.mem_of_find?_eq_some h2)
      have hc1 : r.clientCode = code := by simpa using List.find?_some h1
      have hc2 : r''.clientCode = code := by simpa using List.find?_some h2
      have hname : r.clientName = r''.clientName :=
        hcons r hrmem r'' hr''mem (hc1.trans hc2.symm)
      dsimp only
      rw [hname]
      exact projStatsOf_perm ((hperm.map (buildPiece ws)).filter
        (fun p => p.cliente == r''.clientName)) pr

/-- Witness for the amended C9: a consistent two-client list and a
permutation of it agree on the preview counts of client `C1`, project `P`. -/
theorem c9_witness :
    aggQuery "WS"
      [⟨"C1", "A", "P", "BAR01", "", "", "", "", "", "", ""⟩,
       ⟨"C2", "B", "P", "BAR02", "", "", "", "", "", "", ""⟩,
       ⟨"C1", "A", "Q", "BAR03", "", "", "", "", "", "", ""⟩] "C1" "P" =
    aggQuery "WS"
      [⟨"C1", "A", "Q", "BAR03", "", "", "", "", "", "", ""⟩,
       ⟨"C2", "B", "P", "BAR02", "", "", "", "", "", "", ""⟩,
       ⟨"C1", "A", "P", "BAR01", "", "", "", "", "", "", ""⟩] "C1" "P" :=
  c9_aggregation_order_invariant_when_client_consistent "WS" _ _
    (by decide) (by decide) "C1" "P"

/-! ## Claim C6 -/

theorem pdfIssues_message_ne_dup {r : PdfItemData} {is : ZodIssue}
    (h : is ∈ pdfIssues r) : is.message ≠ duplicateCodeMsg := by
  unfold pdfIssues pdfClienteIssues barcodeIssues at h
  rcases List.mem_append.mp h with h | h
  · split at h <;> simp_all [duplicateCodeMsg]
  · split at h <;> (try split at h) <;> simp_all [duplicateCodeMsg]

theorem validatePdfItem_error {r : PdfItemData} {issues : List ZodIssue}
    (h : validatePdfItem r = .error issues) : pdfIssues r = issues := by
  unfold validatePdfItem at h
  split at h
  all_goals simp_all

/-- C6 counterexample: the claim says the pipeline checks whether a Piece
with the same derived identifier (`workspaceId + barcode`) already exists.
Here the only loaded piece is `WS_XABC` — no piece has the derived
identifier `WS_ABC` of the extracted code `ABC` — yet the record is flagged
invalid with the "code already exists" error, because the code actually
performs a suffix test `p.id.endsWith(codItem)`. -/
theorem c6_counterexample :
    c6Pieces.all (fun p => !(p.id == promobPieceId "WS" "ABC")) = true ∧
    ((processCell c6Pieces "u1" 1 c6Cell).1.map
      (fun it => (it.isValid, it.errors.contains duplicateCodeMsg))) = some (false, true) := by
  decide

/-- C6 amended: for every PDF cell that is kept (a code or a piece-name
match), the produced `PromobItem` is always included in the extracted item
list, and it carries the "Código já existe no sistema" business error —
and is then marked invalid — precisely when some loaded Piece's document id
has the extracted item code as a *suffix* (`p.id.endsWith(codItem)`), not
when a piece with the same derived identifier exists. -/
theorem c6_duplicate_check_suffix_semantics (pieces : List Piece) (uuid : String)
    (pg : Nat) (cell : PdfCell)
    (hkeep : ¬(rawCodOf cell = "" ∧ cell.peca = none)) :
    ((processCell pieces uuid pg cell).1.isSome = true) ∧
    ∀ it, (processCell pieces uuid pg cell).1 = some it →
      ((duplicateCodeMsg ∈ it.errors ↔
        pieces.any (fun p => strEndsWith p.id (pdfValidData cell).codItem) = true) ∧
       (pieces.any (fun p => strEndsWith p.id (pdfValidData cell).codItem) = true →
        it.isValid = false)) := by
  unfold processCell
  rw [if_neg hkeep]
  refine ⟨rfl, ?_⟩
  intro it heq
  rw [Option.some_inj] at heq
  subst heq
  dsimp only
  by_cases hdup : (pieces.any fun p => strEndsWith p.id (pdfValidData cell).codItem) = true
  · simp only [if_pos hdup]
    simp [hdup]
  · simp only [if_neg hdup]
    refine ⟨⟨fun hmem => ?_, fun h => absurd h hdup⟩, fun h => absurd h hdup⟩
    exfalso
    cases hv : validatePdfItem (pdfRawItem cell) with
    | ok v =>
      rw [hv] at hmem
      simp at hmem
    | error issues =>
      rw [hv] at hmem
      simp only [List.mem_map] at hmem
      obtain ⟨is, his, hmsg⟩ := hmem
      rw [← validatePdfItem_error hv] at his
      exact pdfIssues_message_ne_dup his hmsg

/-- Witness for the amended C6: the fixture cell is kept and included. -/
theorem c6_witness :
    (processCell c6Pieces "u1" 1 c6Cell).1.isSome = true :=
  (c6_duplicate_check_suffix_semantics c6Pieces "u1" 1 c6Cell (by decide)).1

/-! ## Claim C8 -/

/-- C8: while the in-flight guard `isProcessingImport` is set, a second
invocation of analyze or confirm returns immediately as a no-op: the state
(including the error collection, the preview and the stores) is untouched
and no error is raised. -/
theorem c8_inflight_guard_noop (st : ImportState)
    (h : st.isProcessingImport = true) :
    handleAnalyze st = st ∧ ∀ (ok : Bool) (now : String), handleConfirm ok now st = st := by
  constructor
  · rw [handleAnalyze]
    simp [h]
  · intro ok now
    rw [handleConfirm]
    cases st.pendingData <;> simp [h]

/-- Witness for C8 at a concrete in-flight state. -/
theorem c8_witness :
    handleAnalyze c8FixtureState = c8FixtureState ∧
    ∀ (ok : Bool) (now : String), handleConfirm ok now c8FixtureState = c8FixtureState :=
  c8_inflight_guard_noop c8FixtureState rfl

end Marcenaria
